import Mathlib

/-!
Verification of the schedule-block sequence composer of `schedule-ptuse-pb.py`.

The Python program keeps its data in string-keyed dictionaries; we embed those
as association lists of string pairs (`Dict`).  The defaults registry
(`DEFAULTS`), the literal schedule-block groups, the tabular reader
(`read_group_from_csv`) and the composer (`populate_ptuse_sbs`) are translated
definition by definition from the source.  Python exceptions (`KeyError` on a
registry lookup) become `Except.error`.
-/

/-- A Python string-valued dict, embedded as an association list.
Lookup finds the first matching key, which agrees with a Python dict
because all dict literals in the source have distinct keys. -/
abbrev Dict := List (String × String)

/-- The defaults registry type: job-kind name to defaults dict. -/
abbrev Registry := List (String × Dict)

/-- `d.get(k)` of a Python dict: `some` of the stored value, else `none`. -/
def alistGet? {α : Type} (d : List (String × α)) (k : String) : Option α :=
  (d.find? (fun p => p.1 == k)).map (fun p => p.2)

/-- `sb_params.get(label, sb_defaults.get(label, ""))` from the source:
the override dict wins whenever the key is present (even with an empty
value), else the defaults dict, else the empty string. -/
def specific_or_default (sb_params sb_defaults : Dict) (label : String) : String :=
  ((alistGet? sb_params label).getD ((alistGet? sb_defaults label).getD ""))

/-- Python `sep.join(xs)`. -/
def pyJoin (sep : String) : List String → String
  | [] => ""
  | [x] => x
  | x :: y :: xs => x ++ sep ++ pyJoin sep (y :: xs)

/-- Python `str` applied to a value that is either a string or `None`. -/
def pyStr : Option String → String
  | some s => s
  | none => "None"

/-- Python `s or None`: an empty string is falsy and becomes `None`. -/
def orNone (s : String) : Option String :=
  if s = "" then none else some s

/-- Python `fmt.format(arg)` for a format string holding at most one
placeholder pair of braces: substitute `arg` for the first placeholder. -/
def pyFormat1 (fmt arg : String) : String :=
  match fmt.splitOn "\x7b\x7d" with
  | [] => fmt
  | [s] => s
  | a :: rest => a ++ arg ++ String.intercalate "\x7b\x7d" rest

/-- `DEFAULTS["phaseupfb"]` from the source. -/
def DEFAULTS_phaseupfb : Dict :=
  [("owner", "sarah"),
   ("description_format", "MKAIV-405 Generic AR1 flatten \x7b\x7d"),
   ("instruction_set",
    "run-obs-script /home/kat/katsdpscripts/observation/bf_phaseup.py "),
   ("time", "-t 600"),
   ("params", "--horizon=20 --flatten-bandpass -n \x27off\x27"),
   ("ids",
    "--proposal-id=\x27MKAIV-330\x27 --program-block-id=\x27MKAIV-405\x27 --issue-id=\x27MKAIV-405\x27"),
   ("notes",
    "This phase up can be run for all imaging observations ... in all modes. There is no need to specify the target or default gains as these are chosen by the script."),
   ("antenna_spec", "available"),
   ("controlled_resources", "cbf,sdp")]

/-- `DEFAULTS["phaseup"]` from the source. -/
def DEFAULTS_phaseup : Dict :=
  [("owner", "sarah"),
   ("description_format", "MKAIV-405 Generic AR1 \x7b\x7d"),
   ("instruction_set",
    "run-obs-script /home/kat/katsdpscripts/observation/bf_phaseup.py "),
   ("time", "-t 64"),
   ("params", "--horizon=20 -n \x27off\x27"),
   ("ids",
    "--proposal-id=\x27MKAIV-330\x27 --program-block-id=\x27MKAIV-405\x27 --issue-id=\x27MKAIV-405\x27"),
   ("notes",
    "This phase up can be run for all imaging observations ... in all modes. There is no need to specify the target or default gains as these are chosen by the script."),
   ("antenna_spec", "available"),
   ("controlled_resources", "cbf,sdp")]

/-- `DEFAULTS["delaycal"]` from the source. -/
def DEFAULTS_delaycal : Dict :=
  [("owner", "sarah"),
   ("description_format", "MKAIV-405 Generic AR1 \x7b\x7d"),
   ("instruction_set",
    "run-obs-script /home/kat/katsdpscripts/observation/calibrate_delays.py  \x27/home/kat/katsdpcatalogues/three_calib.csv\x27 "),
   ("time", "-t 64"),
   ("params", "--horizon=20 -n \x27off\x27"),
   ("ids",
    "--proposal-id=\x27MKAIV-584\x27 --program-block-id=\x27MKAIV-584\x27 --issue-id=\x27MKAIV-584\x27"),
   ("notes", ""),
   ("antenna_spec", "available"),
   ("controlled_resources", "cbf,sdp")]

/-- `DEFAULTS["target"]` from the source (it has no `notes` entry). -/
def DEFAULTS_target : Dict :=
  [("owner", "sarah"),
   ("description_format", "MKAIV-387: CBF \x7b\x7d"),
   ("instruction_set",
    "run-obs-script /home/kat/katusescripts/ptuse/beamform_single_pulsar.py "),
   ("time", "-t 600"),
   ("params", "-B 856 -F 1284 --horizon 20"),
   ("ids",
    "--proposal-id=\x27FST-TRNS\x27 --program-block-id=\x27MKAIV-387\x27 --issue-id=\x27MKAIV-387\x27"),
   ("antenna_spec", "available"),
   ("controlled_resources", "cbf,sdp,ptuse_1")]

/-- The full `DEFAULTS` registry from the source. -/
def DEFAULTS : Registry :=
  [("phaseupfb", DEFAULTS_phaseupfb),
   ("phaseup", DEFAULTS_phaseup),
   ("delaycal", DEFAULTS_delaycal),
   ("target", DEFAULTS_target)]

/-- A corrupted registry with the `delaycal` entry removed, used to probe
the error behaviour of an explicit boundary-kind registry lookup. -/
def DEFAULTS_no_delaycal : Registry :=
  [("phaseupfb", DEFAULTS_phaseupfb),
   ("phaseup", DEFAULTS_phaseup),
   ("target", DEFAULTS_target)]

/-- `sb_groups_default` from the source. -/
def sb_groups_default : List (List Dict) :=
  [[[("target", "phaseup")],
    [("target", "J0437-4715")],
    [("target", "J0738-4042")]],
   [[("target", "phaseup")],
    [("target", "J0742-2822")],
    [("target", "J0835-4510")]],
   [[("target", "phaseup")],
    [("target", "J0437-4715")],
    [("target", "J0953+0755")]]]

/-- `sb_groups_test` from the source. -/
def sb_groups_test : List (List Dict) :=
  [[[("target", "J1909-3744"), ("time", "-t 300"), ("owner", "sarah")]],
   [[("target", "phaseup")],
    [("target", "J0437-4715"), ("time", "-t 600")]]]

/-- `sb_groups_puls1` from the source. -/
def sb_groups_puls1 : List (List Dict) :=
  [[[("target", "phaseup")],
    [("target", "J0437-4715"), ("time", "-t 600")],
    [("target", "J0738-4042"), ("time", "-t 600")]],
   [[("target", "phaseup")],
    [("target", "J0437-4715"), ("time", "-t 600")],
    [("target", "J0738-4042"), ("time", "-t 600")]],
   [[("target", "phaseup")],
    [("target", "J0437-4715"), ("time", "-t 600")],
    [("target", "J0738-4042"), ("time", "-t 600")]]]

/-- `sb_groups_puls2` from the source. -/
def sb_groups_puls2 : List (List Dict) :=
  [[[("target", "phaseup")],
    [("target", "J1909-3744"), ("time", "-t 60")],
    [("target", "J1644-4559"), ("time", "-t 60")]],
   [[("target", "phaseup")],
    [("target", "J1644-4559"), ("time", "-t 60")],
    [("target", "J1909-3744"), ("time", "-t 60")]]]

/-- The `GROUPS` table from the source. -/
def GROUPS : List (String × List (List Dict)) :=
  [("puls1", sb_groups_puls1),
   ("puls2", sb_groups_puls2),
   ("sarah", sb_groups_test),
   ("default", sb_groups_default)]

/-- The step dict built from one tabular row in `read_group_from_csv`:
`{"target": t}` when the `time` field is absent (Python `None`), and
`{"target": t, "time": "-t %s" % v}` when it holds `v` (even empty). -/
def mkStep (r : String × Option String) : Dict :=
  match r.2 with
  | none => [("target", r.1)]
  | some v => [("target", r.1), ("time", "-t " ++ v)]

/-- The row loop of `read_group_from_csv`: the two `if` statements close the
current accumulator on a `phaseup` / `phaseupfb` row when it is non-empty,
then the row is appended to the (possibly just-reset) accumulator.  After
the loop the final accumulator is appended unconditionally. -/
def readLoop : List (String × Option String) → List (List Dict) → List Dict → List (List Dict)
  | [], lol, alist => lol ++ [alist]
  | r :: rs, lol, alist =>
    let p := if r.1 = "phaseup" ∧ 0 < alist.length
             then (lol ++ [alist], ([] : List Dict)) else (lol, alist)
    let q := if r.1 = "phaseupfb" ∧ 0 < p.2.length
             then (p.1 ++ [p.2], ([] : List Dict)) else p
    readLoop rs q.1 (q.2 ++ [mkStep r])

/-- `read_group_from_csv` over rows already shaped by `csv.DictReader`
(`target` always present, `time` possibly `None`). -/
def read_group_from_csv (rows : List (String × Option String)) : List (List Dict) :=
  readLoop rows [] []

/-- `csv.DictReader` with `fieldnames=("target","time")`: blank rows are
skipped; otherwise the first field is `target` and the second, when
present, is `time` (missing trailing fields become `None`). -/
def dictReader (raw : List (List String)) : List (String × Option String) :=
  raw.foldr (fun fs acc =>
    match fs with
    | [] => acc
    | t :: rest => (t, rest.head?) :: acc) []

/-- `read_group_from_csv` from raw delimited rows. -/
def read_group_from_csv_raw (raw : List (List String)) : List (List Dict) :=
  read_group_from_csv (dictReader raw)

/-- A boundary row target value of the tabular provider. -/
def isBoundaryRow (t : String) : Bool :=
  t == "phaseup" || t == "phaseupfb"

/-- A step dict whose `target` entry is a boundary kind. -/
def isBoundaryStep (st : Dict) : Bool :=
  match alistGet? st "target" with
  | some t => isBoundaryRow t
  | none => false

/-- One fully-resolved schedule block: the fields `populate_ptuse_sbs`
writes into the observation database for each step. -/
structure ResolvedJob where
  owner : String
  antenna_spec : String
  controlled_resources : String
  pb_id : Option String
  description : String
  instruction_set : String
  notes : String
  sb_sequence : Nat
  sb_order : Nat
deriving Repr, DecidableEq

/-- `registry[k]` in Python: `KeyError` when the key is absent. -/
def keyGet (r : Registry) (k : String) : Except String Dict :=
  match alistGet? r k with
  | some d => Except.ok d
  | none => Except.error ("KeyError: " ++ k)

/-- The chained `if sb_type == ...` dispatch of `populate_ptuse_sbs`:
the three named kinds use their own registry entry, anything else
(including `None`) falls through to the generic `target` entry. -/
def lookupDefaults (registry : Registry) (sb_type : Option String) : Except String Dict :=
  if sb_type = some "phaseup" then keyGet registry "phaseup"
  else if sb_type = some "phaseupfb" then keyGet registry "phaseupfb"
  else if sb_type = some "delaycal" then keyGet registry "delaycal"
  else keyGet registry "target"

/-- The body of the inner loop of `populate_ptuse_sbs` once the defaults
dict is in hand: resolve every field with `specific_or_default`, build the
instruction string with `" ".join` (boundary kinds omit the target
identifier), and record the enumeration indices. -/
def composeOk (s o : Nat) (sb_params sb_defaults : Dict) : ResolvedJob :=
  let sb_type := alistGet? sb_params "target"
  let sod := specific_or_default sb_params sb_defaults
  { owner := sod "owner",
    antenna_spec := sod "antenna_spec",
    controlled_resources := sod "controlled_resources",
    pb_id := orNone (sod "pb_id"),
    description := pyFormat1 (sod "description_format") (pyStr sb_type),
    instruction_set :=
      if sb_type = some "phaseup" ∨ sb_type = some "phaseupfb" then
        pyJoin " " [sod "instruction_set", sod "time", sod "params", sod "ids"]
      else
        pyJoin " " [sod "instruction_set", sod "target", sod "time",
                    sod "params", sod "ids"],
    notes := sod "notes",
    sb_sequence := s,
    sb_order := o }

/-- One step of `populate_ptuse_sbs`: registry dispatch then job assembly;
a registry `KeyError` aborts the run. -/
def composeStep (registry : Registry) (s o : Nat) (sb_params : Dict) :
    Except String ResolvedJob :=
  match lookupDefaults registry (alistGet? sb_params "target") with
  | Except.error e => Except.error e
  | Except.ok sb_defaults => Except.ok (composeOk s o sb_params sb_defaults)

/-- The inner `for order, sb_params in enumerate(sb_group)` loop. -/
def composeSeq (registry : Registry) (s : Nat) : Nat → List Dict → Except String (List ResolvedJob)
  | _, [] => Except.ok []
  | o, p :: ps =>
    match composeStep registry s o p with
    | Except.error e => Except.error e
    | Except.ok j =>
      match composeSeq registry s (o + 1) ps with
      | Except.error e => Except.error e
      | Except.ok js => Except.ok (j :: js)

/-- The outer `for sequence, sb_group in enumerate(group)` loop. -/
def populateAux (registry : Registry) : Nat → List (List Dict) → Except String (List ResolvedJob)
  | _, [] => Except.ok []
  | s, g :: gs =>
    match composeSeq registry s 0 g with
    | Except.error e => Except.error e
    | Except.ok js =>
      match populateAux registry (s + 1) gs with
      | Except.error e => Except.error e
      | Except.ok rest => Except.ok (js ++ rest)

/-- `populate_ptuse_sbs`: compose every step of every sequence of the
group, in order, against a defaults registry. -/
def populate_ptuse_sbs (registry : Registry) (group : List (List Dict)) :
    Except String (List ResolvedJob) :=
  populateAux registry 0 group

/-- Predicate: no step after the head of a sequence is a boundary step. -/
def tailNB (sq : List Dict) : Prop :=
  ∀ st ∈ sq.tail, isBoundaryStep st = false

/-- Predicate: a sequence starts with a boundary step. -/
def boundaryHead (sq : List Dict) : Prop :=
  ∃ st rest, sq = st :: rest ∧ isBoundaryStep st = true

lemma isBoundaryStep_mkStep (r : String × Option String) :
    isBoundaryStep (mkStep r) = isBoundaryRow r.1 := by
  obtain ⟨t, tm⟩ := r; cases tm <;> rfl

lemma mkStep_target (r : String × Option String) :
    alistGet? (mkStep r) "target" = some r.1 := by
  obtain ⟨t, tm⟩ := r; cases tm <;> rfl

lemma readLoop_cons (r : String × Option String) (rs : List (String × Option String))
    (lol : List (List Dict)) (alist : List Dict) :
    readLoop (r :: rs) lol alist =
      if isBoundaryRow r.1 = true ∧ alist ≠ [] then
        readLoop rs (lol ++ [alist]) [mkStep r]
      else
        readLoop rs lol (alist ++ [mkStep r]) := by
  simp only [readLoop]
  by_cases h3 : alist = []
  · subst h3
    simp [isBoundaryRow]
  · have hlen : 0 < alist.length := List.length_pos.mpr h3
    by_cases h1 : r.1 = "phaseup"
    · have h2 : ¬ (r.1 = "phaseupfb") := by rw [h1]; decide
      simp [h1, h2, hlen, h3, isBoundaryRow]
    · by_cases h2 : r.1 = "phaseupfb"
      · simp [h1, h2, hlen, h3, isBoundaryRow]
      · simp [h1, h2, h3, isBoundaryRow]

lemma readLoop_front : ∀ (rs : List (String × Option String)) (lol : List (List Dict))
    (alist : List Dict), readLoop rs lol alist = lol ++ readLoop rs [] alist := by
  intro rs
  induction rs with
  | nil => intro lol alist; simp [readLoop]
  | cons r rs ih =>
    intro lol alist
    rw [readLoop_cons, readLoop_cons]
    by_cases h : isBoundaryRow r.1 = true ∧ alist ≠ []
    · rw [if_pos h, if_pos h, ih (lol ++ [alist]), ih ([] ++ [alist])]
      simp
    · rw [if_neg h, if_neg h, ih lol]

lemma readLoop_flatten : ∀ (rs : List (String × Option String)) (alist : List Dict),
    (readLoop rs [] alist).flatten = alist ++ rs.map mkStep := by
  intro rs
  induction rs with
  | nil => intro alist; simp [readLoop]
  | cons r rs ih =>
    intro alist
    rw [readLoop_cons]
    by_cases h : isBoundaryRow r.1 = true ∧ alist ≠ []
    · rw [if_pos h, readLoop_front]
      simp [ih]
    · rw [if_neg h]
      simp [ih]

lemma readLoop_noBoundary : ∀ (rs : List (String × Option String)) (alist : List Dict),
    (∀ r ∈ rs, isBoundaryRow r.1 = false) →
    readLoop rs [] alist = [alist ++ rs.map mkStep] := by
  intro rs
  induction rs with
  | nil => intro alist _; simp [readLoop]
  | cons r rs ih =>
    intro alist h
    rw [readLoop_cons, if_neg]
    · rw [ih _ (fun x hx => h x (List.mem_cons_of_mem r hx))]
      simp
    · have hr := h r (List.mem_cons_self r rs)
      simp [hr]

lemma readLoop_mem_ne_nil : ∀ (rs : List (String × Option String)) (alist : List Dict),
    (alist ≠ [] ∨ rs ≠ []) → ∀ sq ∈ readLoop rs [] alist, sq ≠ [] := by
  intro rs
  induction rs with
  | nil =>
    intro alist h sq hsq
    simp [readLoop] at hsq
    subst hsq
    rcases h with h | h
    · exact h
    · exact absurd rfl h
  | cons r rs ih =>
    intro alist h sq hsq
    rw [readLoop_cons] at hsq
    by_cases hb : isBoundaryRow r.1 = true ∧ alist ≠ []
    · rw [if_pos hb, readLoop_front] at hsq
      simp at hsq
      rcases hsq with rfl | hsq
      · exact hb.2
      · exact ih [mkStep r] (Or.inl (by simp)) sq hsq
    · rw [if_neg hb] at hsq
      exact ih _ (Or.inl (by simp)) sq hsq

lemma readLoop_structure : ∀ (rs : List (String × Option String)) (alist : List Dict),
    tailNB alist →
    (∀ sq ∈ readLoop rs [] alist, tailNB sq) ∧
    (∃ ext, (readLoop rs [] alist).head? = some (alist ++ ext)) ∧
    (∀ sq ∈ (readLoop rs [] alist).tail, boundaryHead sq) := by
  intro rs
  induction rs with
  | nil =>
    intro alist h
    refine ⟨?_, ⟨[], by simp [readLoop]⟩, ?_⟩
    · intro sq hsq
      simp [readLoop] at hsq
      subst hsq
      exact h
    · intro sq hsq
      simp [readLoop] at hsq
  | cons r rs ih =>
    intro alist h
    by_cases hb : isBoundaryRow r.1 = true ∧ alist ≠ []
    · have hnb : tailNB [mkStep r] := by intro st hst; simp at hst
      obtain ⟨ih1, ⟨ext, ihh⟩, ih3⟩ := ih [mkStep r] hnb
      have hres : readLoop (r :: rs) [] alist = alist :: readLoop rs [] [mkStep r] := by
        rw [readLoop_cons, if_pos hb, readLoop_front]
        simp
      rw [hres]
      refine ⟨?_, ⟨[], by simp⟩, ?_⟩
      · intro sq hsq
        rcases List.mem_cons.mp hsq with rfl | hsq
        · exact h
        · exact ih1 sq hsq
      · intro sq hsq
        simp only [List.tail_cons] at hsq
        rcases hL : readLoop rs [] [mkStep r] with _ | ⟨a, L2⟩
        · rw [hL] at hsq; simp at hsq
        · rw [hL] at hsq ihh
          simp only [List.head?_cons, Option.some_inj] at ihh
          rcases List.mem_cons.mp hsq with rfl | hsq2
          · refine ⟨mkStep r, ext, by simp [ihh], ?_⟩
            rw [isBoundaryStep_mkStep]
            exact hb.1
          · have := ih3 sq
            rw [hL] at this
            exact this (by simpa using hsq2)
    · have hres : readLoop (r :: rs) [] alist = readLoop rs [] (alist ++ [mkStep r]) := by
        rw [readLoop_cons, if_neg hb]
      have hnb : tailNB (alist ++ [mkStep r]) := by
        intro st hst
        rcases halist : alist with _ | ⟨a0, arest⟩
        · subst halist
          simp at hst
        · subst halist
          simp only [List.cons_append, List.tail_cons] at hst
          rcases List.mem_append.mp hst with hst | hst
          · exact h st (by simpa using hst)
          · have hst2 : st = mkStep r := by simpa using hst
            subst hst2
            rw [isBoundaryStep_mkStep]
            by_cases hbb : isBoundaryRow r.1 = true
            · exact absurd ⟨hbb, by simp⟩ hb
            · simpa using hbb
      obtain ⟨ih1, ⟨ext, ihh⟩, ih3⟩ := ih (alist ++ [mkStep r]) hnb
      rw [hres]
      exact ⟨ih1, ⟨[mkStep r] ++ ext, by rw [ihh]; simp⟩, ih3⟩

/-- The index pairs `(sequence, order)` of one sequence of `n` steps
starting at order `o`. -/
def seqIdxs (s o : Nat) : Nat → List (Nat × Nat)
  | 0 => []
  | n + 1 => (s, o) :: seqIdxs s (o + 1) n

/-- The index pairs of a whole group, given the sequence lengths. -/
def groupIdxs (s : Nat) : List Nat → List (Nat × Nat)
  | [] => []
  | n :: ns => seqIdxs s 0 n ++ groupIdxs (s + 1) ns

/-- One emission step of the index invariant: either the next job stays in
the same sequence with the order incremented, or it opens the next
sequence at order zero. -/
def stepOk (a b : Nat × Nat) : Prop :=
  (b.1 = a.1 ∧ b.2 = a.2 + 1) ∨ (b.1 = a.1 + 1 ∧ b.2 = 0)

lemma lookupDefaults_DEFAULTS_ok (t : Option String) :
    ∃ d, lookupDefaults DEFAULTS t = Except.ok d := by
  unfold lookupDefaults
  split_ifs <;> exact ⟨_, rfl⟩

lemma composeStep_DEFAULTS_ok (s o : Nat) (p : Dict) :
    ∃ d, composeStep DEFAULTS s o p = Except.ok (composeOk s o p d) := by
  obtain ⟨d, hd⟩ := lookupDefaults_DEFAULTS_ok (alistGet? p "target")
  refine ⟨d, ?_⟩
  unfold composeStep
  rw [hd]

@[simp] lemma composeOk_sb_sequence (s o : Nat) (p d : Dict) :
    (composeOk s o p d).sb_sequence = s := rfl

@[simp] lemma composeOk_sb_order (s o : Nat) (p d : Dict) :
    (composeOk s o p d).sb_order = o := rfl

lemma composeSeq_DEFAULTS (s : Nat) : ∀ (ps : List Dict) (o : Nat),
    ∃ js, composeSeq DEFAULTS s o ps = Except.ok js ∧
      js.map (fun j => (j.sb_sequence, j.sb_order)) = seqIdxs s o ps.length := by
  intro ps
  induction ps with
  | nil => intro o; exact ⟨[], rfl, rfl⟩
  | cons p ps ih =>
    intro o
    obtain ⟨d, hd⟩ := composeStep_DEFAULTS_ok s o p
    obtain ⟨js, hjs, hmap⟩ := ih (o + 1)
    refine ⟨composeOk s o p d :: js, ?_, ?_⟩
    · simp only [composeSeq, hd, hjs]
    · simp [hmap, seqIdxs]

lemma populateAux_DEFAULTS : ∀ (gs : List (List Dict)) (s : Nat),
    ∃ jobs, populateAux DEFAULTS s gs = Except.ok jobs ∧
      jobs.map (fun j => (j.sb_sequence, j.sb_order)) = groupIdxs s (gs.map List.length) := by
  intro gs
  induction gs with
  | nil => intro s; exact ⟨[], rfl, rfl⟩
  | cons g gs ih =>
    intro s
    obtain ⟨js, hjs, hm1⟩ := composeSeq_DEFAULTS s g 0
    obtain ⟨rest, hrest, hm2⟩ := ih (s + 1)
    refine ⟨js ++ rest, ?_, ?_⟩
    · simp only [populateAux, hjs, hrest]
    · simp [groupIdxs, hm1, hm2]

lemma chain_seqIdxs (s : Nat) : ∀ (n o : Nat), List.Chain' stepOk (seqIdxs s o n) := by
  intro n
  induction n with
  | zero => intro o; simp [seqIdxs]
  | succ n ih =>
    intro o
    rw [seqIdxs, List.chain'_cons']
    refine ⟨?_, ih (o + 1)⟩
    intro y hy
    cases n with
    | zero => simp [seqIdxs] at hy
    | succ m =>
      simp only [seqIdxs, List.head?_cons, Option.mem_def, Option.some_inj] at hy
      subst hy
      exact Or.inl ⟨rfl, rfl⟩

lemma getLast_seqIdxs (s : Nat) : ∀ (n o : Nat),
    (seqIdxs s o (n + 1)).getLast? = some (s, o + n) := by
  intro n
  induction n with
  | zero => intro o; simp [seqIdxs]
  | succ m ih =>
    intro o
    have h1 : seqIdxs s o (m + 1 + 1) = (s, o) :: seqIdxs s (o + 1) (m + 1) := rfl
    have h2 : seqIdxs s (o + 1) (m + 1) = (s, o + 1) :: seqIdxs s (o + 2) m := rfl
    rw [h1, h2, List.getLast?_cons_cons, ← h2, ih (o + 1)]
    have : o + 1 + m = o + (m + 1) := by omega
    rw [this]

lemma groupIdxs_head (s n : Nat) (ns : List Nat) (hn : 0 < n) :
    (groupIdxs s (n :: ns)).head? = some (s, 0) := by
  obtain ⟨m, rfl⟩ := Nat.exists_eq_succ_of_ne_zero hn.ne'
  rfl

lemma chain_groupIdxs : ∀ (ns : List Nat) (s : Nat), (∀ n ∈ ns, 0 < n) →
    List.Chain' stepOk (groupIdxs s ns) := by
  intro ns
  induction ns with
  | nil => intro s _; simp [groupIdxs]
  | cons n ns ih =>
    intro s h
    have hn : 0 < n := h n (List.mem_cons_self n ns)
    rw [groupIdxs, List.chain'_append]
    refine ⟨chain_seqIdxs s n 0,
            ih (s + 1) (fun m hm => h m (List.mem_cons_of_mem n hm)), ?_⟩
    intro x hx y hy
    obtain ⟨m, rfl⟩ := Nat.exists_eq_succ_of_ne_zero hn.ne'
    rw [getLast_seqIdxs s m 0] at hx
    simp only [Option.mem_def, Option.some_inj] at hx
    subst hx
    cases ns with
    | nil => simp [groupIdxs] at hy
    | cons n2 ns2 =>
      have hn2 : 0 < n2 := h n2 (by simp)
      rw [groupIdxs_head (s + 1) n2 ns2 hn2] at hy
      simp only [Option.mem_def, Option.some_inj] at hy
      subst hy
      exact Or.inr ⟨rfl, rfl⟩

lemma pyJoin_four (sep a b c d : String) :
    pyJoin sep [a, b, c, d] = a ++ sep ++ b ++ sep ++ c ++ sep ++ d := by
  simp only [pyJoin]
  simp [String.append_assoc]

lemma pyJoin_five (sep a b c d e : String) :
    pyJoin sep [a, b, c, d, e] = a ++ sep ++ b ++ sep ++ c ++ sep ++ d ++ sep ++ e := by
  simp only [pyJoin]
  simp [String.append_assoc]

/-- C1 counterexample: a group whose first sequence is empty emits its one
job with `sequence_index = 1`, so the emitted `sequence_index` values do
not start at 0 as the claim requires for every input list of sequences. -/
theorem C1_counterexample :
    (populate_ptuse_sbs DEFAULTS [[], [[("target", "J0437-4715")]]]).map
        (fun js => js.map (fun j => (j.sb_sequence, j.sb_order))) = Except.ok [(1, 0)] ∧
    ((1, 0) : Nat × Nat) ≠ (0, 0) :=
  ⟨rfl, by decide⟩

/-- C1 (amended): for every non-empty group all of whose sequences are
non-empty, composition succeeds and the emitted `(sequence_index,
order_index)` pairs start at `(0, 0)` and, step by step, either keep the
sequence index and increment the order index by one, or increment the
sequence index by exactly one and reset the order index to zero. -/
theorem C1_sequence_order_indices (group : List (List Dict)) (hne : group ≠ [])
    (hall : ∀ sq ∈ group, sq ≠ []) :
    ∃ jobs, populate_ptuse_sbs DEFAULTS group = Except.ok jobs ∧
      (jobs.map (fun j => (j.sb_sequence, j.sb_order))).head? = some (0, 0) ∧
      List.Chain' stepOk (jobs.map (fun j => (j.sb_sequence, j.sb_order))) := by
  obtain ⟨jobs, hjobs, hmap⟩ := populateAux_DEFAULTS group 0
  refine ⟨jobs, hjobs, ?_, ?_⟩
  · rw [hmap]
    cases group with
    | nil => exact absurd rfl hne
    | cons g gs =>
      have hg : 0 < g.length := List.length_pos.mpr (hall g (by simp))
      simp only [List.map_cons]
      exact groupIdxs_head 0 g.length (gs.map List.length) hg
  · rw [hmap]
    apply chain_groupIdxs
    intro n hn
    simp only [List.mem_map] at hn
    obtain ⟨sq, hsq, rfl⟩ := hn
    exact List.length_pos.mpr (hall sq hsq)

/-- C1 witness: the index invariant holds for the built-in default group. -/
theorem C1_witness :
    ∃ jobs, populate_ptuse_sbs DEFAULTS sb_groups_default = Except.ok jobs ∧
      (jobs.map (fun j => (j.sb_sequence, j.sb_order))).head? = some (0, 0) ∧
      List.Chain' stepOk (jobs.map (fun j => (j.sb_sequence, j.sb_order))) :=
  C1_sequence_order_indices sb_groups_default (by decide) (by decide)

/-- C2: the tabular provider appends every row, in order, to some sequence
(the flattening of the result is exactly the rows mapped to step dicts);
with zero boundary rows the result is exactly one sequence holding every
row; with at least one row no emitted sequence is empty (in particular a
leading boundary row emits no empty sequence before it); every sequence
after the first starts with a boundary step, and no sequence holds a
boundary step after its head — i.e. the accumulator is closed exactly at a
boundary row meeting a non-empty accumulator. -/
theorem C2_tabular_boundary_split (rows : List (String × Option String)) :
    ((read_group_from_csv rows).flatten = rows.map mkStep) ∧
    ((∀ r ∈ rows, isBoundaryRow r.1 = false) →
      read_group_from_csv rows = [rows.map mkStep]) ∧
    (rows ≠ [] → ∀ sq ∈ read_group_from_csv rows, sq ≠ []) ∧
    (∀ sq ∈ (read_group_from_csv rows).tail, boundaryHead sq) ∧
    (∀ sq ∈ read_group_from_csv rows, tailNB sq) := by
  have hstr := readLoop_structure rows [] (by intro st hst; simp at hst)
  refine ⟨?_, ?_, ?_, hstr.2.2, hstr.1⟩
  · simpa using readLoop_flatten rows []
  · intro h
    simpa using readLoop_noBoundary rows [] h
  · intro hne
    exact readLoop_mem_ne_nil rows [] (Or.inr hne)

/-- Concrete rows with a leading boundary row and an absent time field. -/
def rows0 : List (String × Option String) := [("phaseup", none), ("J0437-4715", some "600")]

/-- Concrete rows with no boundary row. -/
def rows1 : List (String × Option String) := [("J1909-3744", some "60")]

/-- C2 witness: the boundary-free input yields one sequence, and the input
with a leading boundary row yields no empty sequence. -/
theorem C2_witness :
    read_group_from_csv rows1 = [rows1.map mkStep] ∧
    (∀ sq ∈ read_group_from_csv rows0, sq ≠ []) :=
  ⟨(C2_tabular_boundary_split rows1).2.1 (by decide),
   (C2_tabular_boundary_split rows0).2.2.1 (by decide)⟩

/-- C3 counterexample: a `phaseup` step with an empty `params` override
yields an instruction whose empty field is NOT omitted from the join: the
string contains doubled spaces around the empty field. -/
theorem C3_counterexample :
    (composeStep DEFAULTS 0 0 [("target", "phaseup"), ("params", "")]).map
        (fun j => j.instruction_set) =
      Except.ok "run-obs-script /home/kat/katsdpscripts/observation/bf_phaseup.py  -t 64  --proposal-id=\x27MKAIV-330\x27 --program-block-id=\x27MKAIV-405\x27 --issue-id=\x27MKAIV-405\x27" ∧
    "run-obs-script /home/kat/katsdpscripts/observation/bf_phaseup.py  -t 64  --proposal-id=\x27MKAIV-330\x27 --program-block-id=\x27MKAIV-405\x27 --issue-id=\x27MKAIV-405\x27" =
      "run-obs-script /home/kat/katsdpscripts/observation/bf_phaseup.py" ++ "  " ++
      "-t 64" ++ "  " ++
      "--proposal-id=\x27MKAIV-330\x27 --program-block-id=\x27MKAIV-405\x27 --issue-id=\x27MKAIV-405\x27" :=
  ⟨rfl, rfl⟩

/-- C3 (amended): for every boundary-kind step the instruction string is
always the single-space join `prefix ++ " " ++ time ++ " " ++ params ++ " "
++ ids` of the four resolved fields, with no filtering: an empty resolved
field stays in the join (leaving doubled separator spaces) rather than
being omitted. -/
theorem C3_boundary_instruction_join (p : Dict) (s o : Nat)
    (hb : alistGet? p "target" = some "phaseup" ∨ alistGet? p "target" = some "phaseupfb") :
    ∃ d, lookupDefaults DEFAULTS (alistGet? p "target") = Except.ok d ∧
      composeStep DEFAULTS s o p = Except.ok (composeOk s o p d) ∧
      (composeOk s o p d).instruction_set =
        specific_or_default p d "instruction_set" ++ " " ++
        specific_or_default p d "time" ++ " " ++
        specific_or_default p d "params" ++ " " ++
        specific_or_default p d "ids" := by
  obtain ⟨d, hd⟩ := lookupDefaults_DEFAULTS_ok (alistGet? p "target")
  refine ⟨d, hd, ?_, ?_⟩
  · unfold composeStep
    rw [hd]
  · simp only [composeOk]
    rw [if_pos hb]
    exact pyJoin_four " " _ _ _ _

/-- C3 witness: the join shape at a plain `phaseup` step. -/
theorem C3_witness :
    ∃ d, lookupDefaults DEFAULTS (alistGet? [("target", "phaseup")] "target") = Except.ok d ∧
      composeStep DEFAULTS 0 0 [("target", "phaseup")] =
        Except.ok (composeOk 0 0 [("target", "phaseup")] d) ∧
      (composeOk 0 0 [("target", "phaseup")] d).instruction_set =
        specific_or_default [("target", "phaseup")] d "instruction_set" ++ " " ++
        specific_or_default [("target", "phaseup")] d "time" ++ " " ++
        specific_or_default [("target", "phaseup")] d "params" ++ " " ++
        specific_or_default [("target", "phaseup")] d "ids" :=
  C3_boundary_instruction_join [("target", "phaseup")] 0 0 (Or.inl rfl)

/-- C4 counterexample: an override that is present but empty is returned
as-is; the claim would instead require the defaults value `"-t 64"`. -/
theorem C4_counterexample :
    specific_or_default [("time", "")] DEFAULTS_phaseup "time" = "" ∧
    alistGet? DEFAULTS_phaseup "time" = some "-t 64" ∧
    ("" : String) ≠ "-t 64" :=
  ⟨rfl, rfl, by decide⟩

/-- C4 (amended): field resolution returns the override value whenever the
key is present in the overrides (even if the value is empty), otherwise
the defaults-record value when present, otherwise the empty string; as a
total function it never fails. -/
theorem C4_field_resolution (p d : Dict) (label : String) :
    (∀ v, alistGet? p label = some v → specific_or_default p d label = v) ∧
    (alistGet? p label = none → ∀ w, alistGet? d label = some w →
      specific_or_default p d label = w) ∧
    (alistGet? p label = none → alistGet? d label = none →
      specific_or_default p d label = "") := by
  refine ⟨?_, ?_, ?_⟩
  · intro v hv
    unfold specific_or_default
    rw [hv]
    rfl
  · intro hp w hw
    unfold specific_or_default
    rw [hp, hw]
    rfl
  · intro hp hd
    unfold specific_or_default
    rw [hp, hd]
    rfl

/-- C4 witness: the present-but-empty override case evaluated concretely. -/
theorem C4_witness :
    specific_or_default [("time", "")] DEFAULTS_phaseup "time" = "" :=
  (C4_field_resolution [("time", "")] DEFAULTS_phaseup "time").1 "" rfl

/-- C5: the composer selects `DEFAULTS["phaseup"]` / `["phaseupfb"]` /
`["delaycal"]` for those kinds and the generic `"target"` record for any
other kind, splicing the kind string itself into the instruction as the
target identifier; an unrecognized kind such as `"bogus_kind"` composes
without error, while a registry missing the `delaycal` entry makes an
explicit `delaycal` step fail with a `KeyError`. -/
theorem C5_kind_dispatch :
    lookupDefaults DEFAULTS (some "phaseup") = Except.ok DEFAULTS_phaseup ∧
    lookupDefaults DEFAULTS (some "phaseupfb") = Except.ok DEFAULTS_phaseupfb ∧
    lookupDefaults DEFAULTS (some "delaycal") = Except.ok DEFAULTS_delaycal ∧
    (∀ t : String, t ≠ "phaseup" → t ≠ "phaseupfb" → t ≠ "delaycal" →
      lookupDefaults DEFAULTS (some t) = Except.ok DEFAULTS_target ∧
      composeStep DEFAULTS 0 0 [("target", t)] =
        Except.ok (composeOk 0 0 [("target", t)] DEFAULTS_target) ∧
      (composeOk 0 0 [("target", t)] DEFAULTS_target).instruction_set =
        specific_or_default [("target", t)] DEFAULTS_target "instruction_set" ++ " " ++
        t ++ " " ++
        specific_or_default [("target", t)] DEFAULTS_target "time" ++ " " ++
        specific_or_default [("target", t)] DEFAULTS_target "params" ++ " " ++
        specific_or_default [("target", t)] DEFAULTS_target "ids") ∧
    (∃ j, composeStep DEFAULTS 0 0 [("target", "bogus_kind")] = Except.ok j) ∧
    (∀ s o : Nat, composeStep DEFAULTS_no_delaycal s o [("target", "delaycal")] =
      Except.error "KeyError: delaycal") := by
  refine ⟨rfl, rfl, rfl, ?_, ?_, ?_⟩
  · intro t h1 h2 h3
    have ht : alistGet? [("target", t)] "target" = some t := rfl
    have hlook : lookupDefaults DEFAULTS (some t) = Except.ok DEFAULTS_target := by
      unfold lookupDefaults
      rw [if_neg (by simp [h1]), if_neg (by simp [h2]), if_neg (by simp [h3])]
      rfl
    refine ⟨hlook, ?_, ?_⟩
    · unfold composeStep
      rw [ht, hlook]
    · have hsodt : specific_or_default [("target", t)] DEFAULTS_target "target" = t := rfl
      simp only [composeOk]
      rw [ht, if_neg (by simp [h1, h2]), pyJoin_five, hsodt]
  · exact ⟨composeOk 0 0 [("target", "bogus_kind")] DEFAULTS_target, rfl⟩
  · intro s o
    rfl

/-- C5 witness: the generic fallback applied to a pulsar-name kind. -/
theorem C5_witness :
    lookupDefaults DEFAULTS (some "J0437-4715") = Except.ok DEFAULTS_target :=
  (C5_kind_dispatch.2.2.2.1 "J0437-4715" (by decide) (by decide) (by decide)).1

/-- C6 counterexample: a tabular row with a present-but-empty time field
does produce a time override, namely `"-t "`, where the claim says an
empty time field yields no time override. -/
theorem C6_counterexample :
    read_group_from_csv_raw [["J0437-4715", ""]] =
      [[[("target", "J0437-4715"), ("time", "-t ")]]] ∧
    alistGet? [("target", "J0437-4715"), ("time", "-t ")] "time" ≠ none :=
  ⟨rfl, by decide⟩

/-- C6 (amended): an absent time field yields a step with no time override;
any present time value `v` — the empty string included — yields the
override `"-t " ++ v`; the four-row example decomposes into two sequences
of length 2 whose second steps carry time overrides `"-t 600"` and
`"-t 300"` (the boundary steps carrying the dangling override `"-t "`). -/
theorem C6_time_override (t v : String) :
    read_group_from_csv [(t, none)] = [[[("target", t)]]] ∧
    read_group_from_csv [(t, some v)] = [[[("target", t), ("time", "-t " ++ v)]]] ∧
    read_group_from_csv
        [("phaseup", some ""), ("J0437-4715", some "600"),
         ("phaseup", some ""), ("J0738-4042", some "300")] =
      [[[("target", "phaseup"), ("time", "-t ")],
        [("target", "J0437-4715"), ("time", "-t 600")]],
       [[("target", "phaseup"), ("time", "-t ")],
        [("target", "J0738-4042"), ("time", "-t 300")]]] := by
  refine ⟨?_, ?_, by decide⟩
  · show readLoop [(t, none)] [] [] = _
    rw [readLoop_cons, if_neg (by simp)]
    rfl
  · show readLoop [(t, some v)] [] [] = _
    rw [readLoop_cons, if_neg (by simp)]
    rfl

/-- C7: the literal provider's `"default"` group composes to exactly 9
jobs whose sequence indices are `[0,0,0,1,1,1,2,2,2]` and order indices
`[0,1,2,0,1,2,0,1,2]` in emission order. -/
theorem C7_default_group_nine_jobs :
    alistGet? GROUPS "default" = some sb_groups_default ∧
    (populate_ptuse_sbs DEFAULTS sb_groups_default).map
        (fun js => (js.length, js.map (fun j => j.sb_sequence), js.map (fun j => j.sb_order))) =
      Except.ok (9, [0, 0, 0, 1, 1, 1, 2, 2, 2], [0, 1, 2, 0, 1, 2, 0, 1, 2]) :=
  ⟨rfl, rfl⟩

/-- C8: composition is deterministic — two runs of the composer on the same
registry and group yield the same job list, including instruction strings
and index assignments field for field. -/
theorem C8_composition_deterministic (registry : Registry) (group : List (List Dict))
    (a b : List ResolvedJob)
    (ha : populate_ptuse_sbs registry group = Except.ok a)
    (hb : populate_ptuse_sbs registry group = Except.ok b) :
    a = b ∧ a.map (fun j => j.instruction_set) = b.map (fun j => j.instruction_set) ∧
      a.map (fun j => (j.sb_sequence, j.sb_order)) =
        b.map (fun j => (j.sb_sequence, j.sb_order)) := by
  have hab : a = b := Except.ok.inj (ha.symm.trans hb)
  subst hab
  exact ⟨rfl, rfl, rfl⟩

/-- The jobs composed from the default group, for the C8 witness. -/
def defaultJobs : List ResolvedJob :=
  (populate_ptuse_sbs DEFAULTS sb_groups_default).toOption.getD []

/-- C8 witness: determinism instantiated on the default group. -/
theorem C8_witness :
    defaultJobs = defaultJobs ∧
    defaultJobs.map (fun j => j.instruction_set) = defaultJobs.map (fun j => j.instruction_set) ∧
    defaultJobs.map (fun j => (j.sb_sequence, j.sb_order)) =
      defaultJobs.map (fun j => (j.sb_sequence, j.sb_order)) :=
  C8_composition_deterministic DEFAULTS sb_groups_default defaultJobs defaultJobs rfl rfl

/-- C9 counterexample: a raw input whose first row lacks a target field (a
blank row) is silently skipped — reading returns normally and composition
completes with one job, where the claim requires a fatal
`MalformedRowError` aborting the run. -/
theorem C9_counterexample :
    read_group_from_csv_raw [[], ["J1909-3744", "60"]] =
      [[[("target", "J1909-3744"), ("time", "-t 60")]]] ∧
    (populate_ptuse_sbs DEFAULTS (read_group_from_csv_raw [[], ["J1909-3744", "60"]])).map
        (fun js => js.length) = Except.ok 1 :=
  ⟨rfl, rfl⟩

/-- C9 (amended): the tabular reader can never produce a step without a
target field — blank rows are skipped by the reader and every non-blank
row supplies its first field as the target — and reading is total, so no
malformed-row failure exists. -/
theorem C9_rows_always_have_target (raw : List (List String)) (sq : List Dict) (st : Dict)
    (hsq : sq ∈ read_group_from_csv_raw raw) (hst : st ∈ sq) :
    ∃ v, alistGet? st "target" = some v := by
  have hj : st ∈ (read_group_from_csv_raw raw).flatten :=
    List.mem_flatten.mpr ⟨sq, hsq, hst⟩
  have hjoin := readLoop_flatten (dictReader raw) []
  have : st ∈ (dictReader raw).map mkStep := by
    rw [show read_group_from_csv_raw raw = readLoop (dictReader raw) [] [] from rfl] at hj
    rw [hjoin] at hj
    simpa using hj
  obtain ⟨r, _, rfl⟩ := List.mem_map.mp this
  exact ⟨r.1, mkStep_target r⟩

/-- C9 witness: the single step read from a one-row file has a target. -/
theorem C9_witness :
    ∃ v, alistGet? [("target", "phaseup")] "target" = some v :=
  C9_rows_always_have_target [["phaseup"]] [[("target", "phaseup")]] [("target", "phaseup")]
    (by decide) (by decide)

/-- C10: an input with zero rows makes the tabular provider return exactly
one empty sequence — the final accumulator is appended unconditionally —
rather than an empty list of sequences. -/
theorem C10_empty_input_single_empty_sequence :
    read_group_from_csv_raw [] = [[]] ∧ read_group_from_csv [] = [[]] ∧
    (read_group_from_csv_raw []).length = 1 :=
  ⟨rfl, rfl, rfl⟩
